import Mathlib

/-!
Shallow embedding of the announcements/auth backend
(`src/backend/routers/announcements.py`, `src/backend/routers/auth.py`).

Records of the Mongo collections are modelled as Lean structures; the two
collections are lists of records; each HTTP handler becomes a pure function
returning an `Except Err` result, paired with the resulting store state for
the mutating handlers.  MongoDB `ObjectId`s are modelled by their canonical
string form, compared by string equality; identifier validity is the
24-hex-digit check `ObjectId(s)` performs on strings.  Python string
comparison (`<`, `>`) is code-point lexicographic comparison, embedded below
as `charListLt`/`strLtB`.  Python truthiness of an optional string field
(`if x:`) is `truthyOpt`: present and non-empty.
-/

/-- Code-point lexicographic `<` on character lists, as Python compares
strings. -/
def charListLt : List Char → List Char → Bool
  | [], [] => false
  | [], _ :: _ => true
  | _ :: _, [] => false
  | a :: as, b :: bs => if a = b then charListLt as bs else decide (a.toNat < b.toNat)

/-- Python `a < b` on strings. -/
def strLtB (a b : String) : Bool := charListLt a.toList b.toList

/-- Python `a <= b` on strings (total code-point order). -/
def strLeB (a b : String) : Bool := !(strLtB b a)

/-- Python truthiness of an optional string: present and non-empty. -/
def truthyOpt : Option String → Bool
  | none => false
  | some s => !(s == "")

/-- Numeric value of a decimal digit character. -/
def digitVal (c : Char) : Nat := c.toNat - '0'.toNat

/-- Gregorian leap-year rule, as Python's `datetime` uses. -/
def isLeap (y : Nat) : Bool := y % 4 == 0 && (y % 100 != 0 || y % 400 == 0)

/-- Days in month `m` of year `y`, as Python's `datetime` uses. -/
def daysInMonth (y m : Nat) : Nat :=
  if m == 2 then (if isLeap y then 29 else 28)
  else if m == 4 || m == 6 || m == 9 || m == 11 then 30
  else 31

/-- Models Python's `datetime.fromisoformat` restricted to the date-only
`YYYY-MM-DD` inputs the API documents: four digits, dash, two digits, dash,
two digits, denoting a valid Gregorian calendar date with year at least 1
(time-suffixed ISO inputs are outside the model). Returns
`some (year, month, day)` on success. -/
def parseIsoDate (s : String) : Option (Nat × Nat × Nat) :=
  match s.toList with
  | [y1, y2, y3, y4, '-', m1, m2, '-', d1, d2] =>
    if (y1.isDigit && y2.isDigit && y3.isDigit && y4.isDigit &&
        m1.isDigit && m2.isDigit && d1.isDigit && d2.isDigit) then
      let y := digitVal y1 * 1000 + digitVal y2 * 100 + digitVal y3 * 10 + digitVal y4
      let m := digitVal m1 * 10 + digitVal m2
      let d := digitVal d1 * 10 + digitVal d2
      if 1 ≤ y && 1 ≤ m && m ≤ 12 && 1 ≤ d && d ≤ daysInMonth y m then
        some (y, m, d)
      else none
    else none
  | _ => none

/-- `datetime.fromisoformat(s)` succeeds (date-only model). -/
def isoParses (s : String) : Bool := (parseIsoDate s).isSome

/-- `ObjectId(s)` succeeds on a string iff it is 24 hexadecimal digits. -/
def isValidObjectId (s : String) : Bool :=
  s.length == 24 && s.toList.all (fun c => c.isDigit || ('a' ≤ c && c ≤ 'f') || ('A' ≤ c && c ≤ 'F'))

/-- An announcement document's data fields.  `end_date` is required by the
create schema but the store itself holds whatever documents it holds, so both
dates are optional here, as `announcement.get(...)` treats them. -/
structure Announcement where
  message : String
  start_date : Option String
  end_date : Option String
  deriving DecidableEq, Repr

/-- A stored announcement: the document plus its `_id` (canonical string
form of the ObjectId). -/
structure StoredAnnouncement where
  oid : String
  data : Announcement
  deriving DecidableEq, Repr

/-- The `announcements` collection. -/
abbrev AnnStore := List StoredAnnouncement

/-- A teacher document: `_id` is the username. -/
structure Teacher where
  username : String
  display_name : String
  role : String
  password : String
  deriving DecidableEq, Repr

/-- The `teachers` collection. -/
abbrev TeacherStore := List Teacher

/-- The public identity every auth endpoint returns on success. -/
structure AuthUser where
  username : String
  display_name : String
  role : String
  deriving DecidableEq, Repr

/-- The error taxonomy of the handlers: HTTP status plus detail message. -/
inductive Err where
  | badRequest (detail : String)
  | unauthorized (detail : String)
  | notFound (detail : String)
  | internal (detail : String)
  deriving DecidableEq, Repr

/-- `{username, display_name, role}` projection of a teacher record. -/
def publicOf (t : Teacher) : AuthUser :=
  ⟨t.username, t.display_name, t.role⟩

/-- `teachers_collection.find_one({"_id": username})`. -/
def findTeacher (ts : TeacherStore) (username : String) : Option Teacher :=
  ts.find? (fun t => t.username == username)

/-- Python `h.replace("Bearer ", "")` on the character list: removes every
occurrence of the pattern, scanning left to right without rescanning the
junction of a removal. -/
def stripBearerChars : List Char → List Char
  | 'B' :: 'e' :: 'a' :: 'r' :: 'e' :: 'r' :: ' ' :: rest => stripBearerChars rest
  | c :: rest => c :: stripBearerChars rest
  | [] => []

/-- `authorization.replace("Bearer ", "")`. -/
def stripBearer (h : String) : String := ⟨stripBearerChars h.toList⟩

/-- `get_current_user` (auth.py): fails 401 when the header is absent or
empty (Python `if not authorization:`), otherwise strips `"Bearer "` and
looks the remainder up as the `_id` in the teachers collection. -/
def get_current_user (ts : TeacherStore) (authorization : Option String) :
    Except Err AuthUser :=
  match authorization with
  | none => .error (.unauthorized "Not authenticated")
  | some h =>
    if h == "" then .error (.unauthorized "Not authenticated")
    else
      match findTeacher ts (stripBearer h) with
      | none => .error (.unauthorized "Invalid authentication credentials")
      | some t => .ok (publicOf t)

/-- `login` (auth.py): finds the teacher by `_id`; one branch rejects both a
missing record and a failing password verification with the same 401 error.
The Argon2 verifier is an external collaborator, passed in as `verify`
(stored hash, provided password). -/
def login (verify : String → String → Bool) (ts : TeacherStore)
    (username password : String) : Except Err AuthUser :=
  match findTeacher ts username with
  | none => .error (.unauthorized "Invalid username or password")
  | some t =>
    if verify t.password password then .ok (publicOf t)
    else .error (.unauthorized "Invalid username or password")

/-- `check_session` (auth.py): lookup by username only. -/
def check_session (ts : TeacherStore) (username : String) : Except Err AuthUser :=
  match findTeacher ts username with
  | none => .error (.notFound "Teacher not found")
  | some t => .ok (publicOf t)

/-- The active-window test of `get_active_announcements`: not started-late
and not ended-early, with Python truthiness on the optional fields. -/
def isActive (today : String) (a : Announcement) : Bool :=
  !(truthyOpt a.start_date && strLtB today (a.start_date.getD "")) &&
  !(truthyOpt a.end_date && strLtB (a.end_date.getD "") today)

/-- `get_active_announcements` (announcements.py): filter the collection by
the active-window test, preserving store order. -/
def get_active_announcements (today : String) (store : AnnStore) : AnnStore :=
  store.filter (fun r => isActive today r.data)

/-- `get_all_announcements` (announcements.py): the whole collection. -/
def get_all_announcements (store : AnnStore) : AnnStore := store

/-- The `AnnouncementCreate` request body, post-pydantic: `message`
(1–500 chars, enforced by pydantic before the handler runs), optional
`start_date`, required `end_date`. -/
structure AnnouncementCreate where
  message : String
  start_date : Option String
  end_date : String
  deriving DecidableEq, Repr

/-- The `AnnouncementUpdate` request body, post-pydantic: every field
optional; `none` means the field was not supplied. -/
structure AnnouncementUpdate where
  message : Option String
  start_date : Option String
  end_date : Option String
  deriving DecidableEq, Repr

/-- `create_announcement` (announcements.py).  Validation order as in the
source: `start_date` is ISO-validated only when truthy (Python
`if announcement.start_date:`, so an empty string is skipped); `end_date` is
always ISO-validated; then, when both are truthy, `start_date >
end_date` is rejected.  On success the document is inserted and gets the
fresh id `newId` chosen by the store.  Returns the handler result together
with the resulting collection state. -/
def create_announcement (store : AnnStore) (newId : String)
    (req : AnnouncementCreate) : Except Err StoredAnnouncement × AnnStore :=
  if truthyOpt req.start_date && !(isoParses (req.start_date.getD "")) then
    (.error (.badRequest "Invalid start_date format. Use YYYY-MM-DD"), store)
  else if !(isoParses req.end_date) then
    (.error (.badRequest "Invalid end_date format. Use YYYY-MM-DD"), store)
  else if truthyOpt req.start_date && !(req.end_date == "") &&
      strLtB req.end_date (req.start_date.getD "") then
    (.error (.badRequest "end_date must be after start_date"), store)
  else
    let doc : StoredAnnouncement :=
      ⟨newId, ⟨req.message, req.start_date, some req.end_date⟩⟩
    (.ok doc, store ++ [doc])

/-- The `$set` of the update: overwrite exactly the supplied fields. -/
def applyUpd (u : AnnouncementUpdate) (a : Announcement) : Announcement :=
  { message := u.message.getD a.message
    start_date := match u.start_date with
      | some s => some s
      | none => a.start_date
    end_date := match u.end_date with
      | some s => some s
      | none => a.end_date }

/-- `update_one({"_id": oid}, {"$set": ...})`: rewrite the first document
whose `_id` matches, leave the rest alone. -/
def updateFirst (oid : String) (f : Announcement → Announcement) :
    AnnStore → AnnStore
  | [] => []
  | r :: rest =>
    if r.oid == oid then { r with data := f r.data } :: rest
    else r :: updateFirst oid f rest

/-- `matched_count` of the update: is there a document with this `_id`? -/
def existsOid (store : AnnStore) (oid : String) : Bool :=
  store.any (fun r => r.oid == oid)

/-- `update_announcement` (announcements.py).  Order as in the source:
ObjectId validity first; then each supplied date is ISO-validated while the
`$set` document is built; then the empty-`$set` check; then `update_one`
runs and a zero `matched_count` yields 404.  Returns the handler result
together with the resulting collection state. -/
def update_announcement (store : AnnStore) (announcement_id : String)
    (u : AnnouncementUpdate) : Except Err Unit × AnnStore :=
  if !(isValidObjectId announcement_id) then
    (.error (.badRequest "Invalid announcement ID"), store)
  else if u.start_date.isSome && !(isoParses (u.start_date.getD "")) then
    (.error (.badRequest "Invalid start_date format. Use YYYY-MM-DD"), store)
  else if u.end_date.isSome && !(isoParses (u.end_date.getD "")) then
    (.error (.badRequest "Invalid end_date format. Use YYYY-MM-DD"), store)
  else if u.message.isNone && u.start_date.isNone && u.end_date.isNone then
    (.error (.badRequest "No fields to update"), store)
  else
    let store' := updateFirst announcement_id (applyUpd u) store
    if !(existsOid store announcement_id) then
      (.error (.notFound "Announcement not found"), store')
    else
      (.ok (), store')

/-- `delete_one({"_id": oid})`: remove the first document whose `_id`
matches. -/
def deleteFirst (oid : String) : AnnStore → AnnStore
  | [] => []
  | r :: rest => if r.oid == oid then rest else r :: deleteFirst oid rest

/-- `delete_announcement` (announcements.py): ObjectId validity first, then
`delete_one`; a zero `deleted_count` yields 404.  Returns the handler result
together with the resulting collection state. -/
def delete_announcement (store : AnnStore) (announcement_id : String) :
    Except Err Unit × AnnStore :=
  if !(isValidObjectId announcement_id) then
    (.error (.badRequest "Invalid announcement ID"), store)
  else
    let store' := deleteFirst announcement_id store
    if !(existsOid store announcement_id) then
      (.error (.notFound "Announcement not found"), store')
    else
      (.ok (), store')

/-! ### Spec-side definitions

These are written from the specification's words, to be compared with the
handler functions above. -/

/-- The active-window condition as the specification states it: the record
is visible iff (`start_date` absent or `start_date <= today`) and
(`end_date` absent or `end_date >= today`), with lexicographic string
comparison. -/
def activeSpec (today : String) (a : Announcement) : Bool :=
  (a.start_date.isNone || strLeB (a.start_date.getD "") today) &&
  (a.end_date.isNone || strLeB today (a.end_date.getD ""))

/-- The characters of the credential marker `"Bearer "`. -/
def bearerPat : List Char := ['B', 'e', 'a', 'r', 'e', 'r', ' ']

/-- Does the marker `"Bearer "` occur as a substring anywhere in the list? -/
def hasBearerOccChars : List Char → Bool
  | [] => false
  | c :: rest => bearerPat.isPrefixOf (c :: rest) || hasBearerOccChars rest

/-- Does `"Bearer "` occur as a substring anywhere in the string? -/
def hasBearerOcc (s : String) : Bool := hasBearerOccChars s.toList

/-- The data-model invariant: when both dates are present,
`start_date <= end_date`. -/
def invRecord (a : Announcement) : Bool :=
  match a.start_date, a.end_date with
  | some s, some e => strLeB s e
  | _, _ => true

/-- Every record of the collection satisfies the date invariant. -/
def invStore (store : AnnStore) : Bool :=
  store.all (fun r => invRecord r.data)

/-! ### Helper lemmas -/

theorem charListLt_nil_right (l : List Char) : charListLt l [] = false := by
  cases l <;> rfl

theorem strLtB_empty_right (s : String) : strLtB s "" = false := by
  show charListLt s.toList [] = false
  exact charListLt_nil_right _

/-- A string accepted by the ISO date parser is non-empty. -/
theorem isoParses_ne_empty {s : String} (h : isoParses s = true) : s ≠ "" := by
  intro he
  subst he
  exact absurd h (by decide)

/-- Under Python truthiness of the optional fields, the handler's active
test agrees with the specification's window condition whenever the
`end_date` field, if present, is non-empty. -/
theorem isActive_eq_activeSpec (today : String) (a : Announcement)
    (he : a.end_date ≠ some "") :
    isActive today a = activeSpec today a := by
  cases hst : a.start_date with
  | none =>
    cases hen : a.end_date with
    | none => simp [isActive, activeSpec, truthyOpt, hst, hen]
    | some e =>
      have hne : (e == "") = false := by
        rcases hb : (e == "") with _ | _
        · rfl
        · exact absurd (hen.trans (by rw [eq_of_beq hb])) he
      simp [isActive, activeSpec, truthyOpt, hst, hen, hne, strLeB]
  | some s =>
    cases hen : a.end_date with
    | none =>
      rcases hb : (s == "") with _ | _
      · simp [isActive, activeSpec, truthyOpt, hst, hen, hb, strLeB]
      · have hsb := eq_of_beq hb
        subst hsb
        simp [isActive, activeSpec, truthyOpt, hst, hen, strLeB, strLtB_empty_right]
    | some e =>
      have hne : (e == "") = false := by
        rcases hb : (e == "") with _ | _
        · rfl
        · exact absurd (hen.trans (by rw [eq_of_beq hb])) he
      rcases hb : (s == "") with _ | _
      · simp [isActive, activeSpec, truthyOpt, hst, hen, hb, hne, strLeB]
      · have hsb := eq_of_beq hb
        subst hsb
        simp [isActive, activeSpec, truthyOpt, hst, hen, hne, strLeB, strLtB_empty_right]

/-- If `"Bearer "` occurs nowhere in the list, the replacement is the
identity. -/
theorem stripBearerChars_of_no_occ : ∀ l : List Char,
    hasBearerOccChars l = false → stripBearerChars l = l := by
  intro l
  induction l using stripBearerChars.induct with
  | case1 rest ih =>
    intro h
    exfalso
    simp [hasBearerOccChars, bearerPat, List.isPrefixOf] at h
  | case2 c rest hne ih =>
    intro h
    simp only [hasBearerOccChars, Bool.or_eq_false_iff] at h
    rw [stripBearerChars.eq_2 c rest hne, ih h.2]
  | case3 =>
    intro h
    rfl

/-- If `"Bearer "` occurs nowhere in the string, the replacement is the
identity. -/
theorem stripBearer_of_no_occ (s : String) (h : hasBearerOcc s = false) :
    stripBearer s = s := by
  show String.mk (stripBearerChars s.toList) = s
  rw [stripBearerChars_of_no_occ s.toList h]
  rfl

/-- `update_one` with an `_id` matching no document leaves the collection
unchanged. -/
theorem updateFirst_of_not_exists (oid : String) (f : Announcement → Announcement) :
    ∀ store : AnnStore, existsOid store oid = false → updateFirst oid f store = store := by
  intro store
  induction store with
  | nil => intro _; rfl
  | cons r rest ih =>
    intro h
    simp only [existsOid, List.any_cons, Bool.or_eq_false_iff] at h
    simp only [updateFirst, h.1, Bool.false_eq_true, if_false]
    rw [ih h.2]

/-- `delete_one` with an `_id` matching no document leaves the collection
unchanged. -/
theorem deleteFirst_of_not_exists (oid : String) :
    ∀ store : AnnStore, existsOid store oid = false → deleteFirst oid store = store := by
  intro store
  induction store with
  | nil => intro _; rfl
  | cons r rest ih =>
    intro h
    simp only [existsOid, List.any_cons, Bool.or_eq_false_iff] at h
    simp only [deleteFirst, h.1, Bool.false_eq_true, if_false]
    rw [ih h.2]

/-- A document whose `_id` differs from the updated one survives
`update_one` untouched. -/
theorem mem_updateFirst_of_ne (oid : String) (f : Announcement → Announcement) :
    ∀ store : AnnStore, ∀ r ∈ store, r.oid ≠ oid → r ∈ updateFirst oid f store := by
  intro store
  induction store with
  | nil => intro r hr _; exact absurd hr (List.not_mem_nil r)
  | cons s rest ih =>
    intro r hr hne
    rcases List.mem_cons.mp hr with heq | hmem
    · subst heq
      have : (r.oid == oid) = false := by
        rcases hb : (r.oid == oid) with _ | _
        · rfl
        · exact absurd (eq_of_beq hb) hne
      simp only [updateFirst, this, Bool.false_eq_true, if_false]
      exact List.mem_cons_self r _
    · simp only [updateFirst]
      split
      · exact List.mem_cons_of_mem _ hmem
      · exact List.mem_cons_of_mem _ (ih r hmem hne)

/-- Every document of the deleted collection was in the original one. -/
theorem mem_of_mem_deleteFirst (oid : String) :
    ∀ store : AnnStore, ∀ r ∈ deleteFirst oid store, r ∈ store := by
  intro store
  induction store with
  | nil => intro r hr; exact absurd hr (List.not_mem_nil r)
  | cons s rest ih =>
    intro r hr
    simp only [deleteFirst] at hr
    split at hr
    · exact List.mem_cons_of_mem _ hr
    · rcases List.mem_cons.mp hr with heq | hmem
      · exact heq ▸ List.mem_cons_self s rest
      · exact List.mem_cons_of_mem _ (ih r hmem)

/-- When at most one document carries the `_id`, no document with that
`_id` survives the deletion. -/
theorem deleteFirst_removes_all (oid : String) :
    ∀ store : AnnStore, (store.filter (fun x => x.oid == oid)).length ≤ 1 →
      ∀ r ∈ deleteFirst oid store, r.oid ≠ oid := by
  intro store
  induction store with
  | nil => intro _ r hr; exact absurd hr (List.not_mem_nil r)
  | cons s rest ih =>
    intro hcount r hr
    simp only [deleteFirst] at hr
    rcases hb : (s.oid == oid) with _ | _
    · rw [hb] at hr
      simp only [Bool.false_eq_true, if_false] at hr
      rcases List.mem_cons.mp hr with heq | hmem
      · subst heq
        intro habs
        rw [habs] at hb
        simp at hb
      · have : (List.filter (fun x => x.oid == oid) (s :: rest)).length =
            (List.filter (fun x => x.oid == oid) rest).length := by
          simp [List.filter_cons, hb]
        exact ih (by omega) r hmem
    · rw [hb] at hr
      simp only [if_true] at hr
      have hlen : (List.filter (fun x => x.oid == oid) (s :: rest)).length =
          (List.filter (fun x => x.oid == oid) rest).length + 1 := by
        simp [List.filter_cons, hb]
      have hzero : (List.filter (fun x => x.oid == oid) rest).length = 0 := by omega
      intro habs
      have : r ∈ List.filter (fun x => x.oid == oid) rest :=
        List.mem_filter.mpr ⟨hr, by rw [habs]; simp⟩
      rw [List.length_eq_zero] at hzero
      rw [hzero] at this
      exact absurd this (List.not_mem_nil r)

/-- A document with a matching `_id` makes `existsOid` true. -/
theorem existsOid_of_mem {store : AnnStore} {r : StoredAnnouncement}
    (hr : r ∈ store) (h : r.oid = oid) : existsOid store oid = true := by
  exact List.any_eq_true.mpr ⟨r, hr, by rw [h]; simp⟩

/-- No document with a matching `_id` makes `existsOid` false. -/
theorem existsOid_eq_false {store : AnnStore}
    (h : ∀ r ∈ store, r.oid ≠ oid) : existsOid store oid = false := by
  rcases hb : existsOid store oid with _ | _
  · rfl
  · obtain ⟨r, hr, hoid⟩ := List.any_eq_true.mp hb
    exact absurd (eq_of_beq hoid) (h r hr)

/-! ### Concrete fixtures for witnesses -/

/-- A well-formed ObjectId string. -/
def oidA : String := "aaaaaaaaaaaaaaaaaaaaaaaa"

/-- The specification's example announcement. -/
def examWeek : Announcement := ⟨"Exam week", some "2025-01-01", some "2025-01-10"⟩

/-- The example announcement as stored. -/
def examWeekRec : StoredAnnouncement := ⟨oidA, examWeek⟩

/-- A sample teacher record. -/
def teacherA : Teacher := ⟨"alice", "Alice", "teacher", "hash1"⟩

/-- A sample password verifier standing in for the Argon2 collaborator. -/
def verifyEq (hash password : String) : Bool := hash == password

/-! ### Claims -/

/-- C1: a record whose `end_date`, when present, is a non-empty string is in
the list-active result iff it is in the store and satisfies the
specification's window condition (`start_date` absent or `<= today`, and
`end_date` absent or `>= today`, lexicographically); in particular the
example record is included for `today = "2025-01-05"` and excluded for
`today = "2025-01-11"`. -/
theorem active_filter_iff_window (store : AnnStore) (today : String)
    (r : StoredAnnouncement) (he : r.data.end_date ≠ some "") :
    (r ∈ get_active_announcements today store ↔
      r ∈ store ∧ activeSpec today r.data = true) ∧
    examWeekRec ∈ get_active_announcements "2025-01-05" [examWeekRec] ∧
    examWeekRec ∉ get_active_announcements "2025-01-11" [examWeekRec] := by
  refine ⟨?_, by decide, by decide⟩
  rw [get_active_announcements, List.mem_filter,
    isActive_eq_activeSpec today r.data he]

/-- Witness for C1 at the specification's example. -/
theorem active_filter_iff_window_witness :
    examWeekRec ∈ get_active_announcements "2025-01-05" [examWeekRec] :=
  (active_filter_iff_window [examWeekRec] "2025-01-05" examWeekRec
    (by decide)).1.mpr ⟨by decide, by decide⟩

/-- C3: login with an unknown username and login with a known username but
failing password verification produce the same unauthorized error, and login
succeeds exactly when the username is found and the password verifies. -/
theorem login_uniform_unauthorized (verify : String → String → Bool)
    (ts : TeacherStore) (u p : String) :
    (findTeacher ts u = none →
      login verify ts u p = .error (.unauthorized "Invalid username or password")) ∧
    (∀ t, findTeacher ts u = some t → verify t.password p = false →
      login verify ts u p = .error (.unauthorized "Invalid username or password")) ∧
    (∀ r, login verify ts u p = .ok r ↔
      ∃ t, findTeacher ts u = some t ∧ verify t.password p = true ∧ r = publicOf t) := by
  refine ⟨?_, ?_, ?_⟩
  · intro h
    simp [login, h]
  · intro t ht hv
    simp [login, ht, hv]
  · intro r
    constructor
    · intro h
      unfold login at h
      rcases hf : findTeacher ts u with _ | t
      · rw [hf] at h
        exact absurd h (by simp)
      · rw [hf] at h
        rcases hv : verify t.password p with _ | _
        · simp [hv] at h
        · simp [hv] at h
          exact ⟨t, rfl, hv, h.symm⟩
    · rintro ⟨t, ht, hv, rfl⟩
      simp [login, ht, hv]

/-- Witness for C3: unknown username is rejected with the uniform error. -/
theorem login_uniform_unauthorized_witness :
    login verifyEq [teacherA] "bob" "x" =
      .error (.unauthorized "Invalid username or password") :=
  (login_uniform_unauthorized verifyEq [teacherA] "bob" "x").1 (by decide)

/-- C4: the authenticated-request gate rejects an absent (or empty, which
Python truthiness treats the same) header as unauthorized; any other header
value is stripped of the `"Bearer "` marker and looked up verbatim as the
teachers `_id`: no match is unauthorized, a match yields that teacher's
public identity. -/
theorem gate_header_cases (ts : TeacherStore) (auth : Option String) :
    (auth = none ∨ auth = some "" →
      get_current_user ts auth = .error (.unauthorized "Not authenticated")) ∧
    (∀ h, auth = some h → h ≠ "" →
      get_current_user ts auth =
        (match findTeacher ts (stripBearer h) with
          | none => .error (.unauthorized "Invalid authentication credentials")
          | some t => .ok (publicOf t))) := by
  constructor
  · rintro (rfl | rfl)
    · rfl
    · rfl
  · rintro h rfl hne
    have hb : (h == "") = false := by
      rcases hb : (h == "") with _ | _
      · rfl
      · exact absurd (eq_of_beq hb) hne
    simp [get_current_user, hb]

/-- Witness for C4: the absent-header case at a concrete store. -/
theorem gate_header_cases_witness :
    get_current_user [teacherA] none = .error (.unauthorized "Not authenticated") :=
  (gate_header_cases [teacherA] none).1 (Or.inl rfl)

/-- C10: for a non-empty header the gate's looked-up username is the header
with every occurrence of `"Bearer "` removed (Python `str.replace`, not just
a leading marker); a header carrying no `"Bearer "` occurrence at all — in
particular a bare username — is looked up as itself and authenticates as
that user. -/
theorem gate_strips_all_bearer_occurrences (ts : TeacherStore) (h : String)
    (hne : h ≠ "") :
    (get_current_user ts (some h) =
      (match findTeacher ts (stripBearer h) with
        | none => .error (.unauthorized "Invalid authentication credentials")
        | some t => .ok (publicOf t))) ∧
    stripBearer "Bearer Bearer bob" = "bob" ∧
    (∀ u : String, hasBearerOcc u = false → stripBearer u = u) ∧
    (∀ t, hasBearerOcc h = false → findTeacher ts h = some t →
      get_current_user ts (some h) = .ok (publicOf t)) := by
  have hb : (h == "") = false := by
    rcases hb : (h == "") with _ | _
    · rfl
    · exact absurd (eq_of_beq hb) hne
  have hmain : get_current_user ts (some h) =
      (match findTeacher ts (stripBearer h) with
        | none => .error (.unauthorized "Invalid authentication credentials")
        | some t => .ok (publicOf t)) := by
    simp [get_current_user, hb]
  refine ⟨hmain, by decide, stripBearer_of_no_occ, ?_⟩
  intro t hocc hfind
  rw [hmain, stripBearer_of_no_occ h hocc, hfind]

/-- Witness for C10: a bare username with no `"Bearer "` marker
authenticates as that user. -/
theorem gate_strips_all_bearer_occurrences_witness :
    get_current_user [teacherA] (some "alice") = .ok (publicOf teacherA) :=
  (gate_strips_all_bearer_occurrences [teacherA] "alice" (by decide)).2.2.2
    teacherA (by decide) (by decide)

/-- C5: a successful update rewrites exactly the first document with the
given `_id` by overwriting the supplied fields; documents with other `_id`s
survive unchanged, and within the rewritten document every unsupplied field
keeps its stored value while every supplied field takes the supplied
value. -/
theorem update_writes_only_supplied_fields (store : AnnStore) (id : String)
    (u : AnnouncementUpdate) (store' : AnnStore)
    (hok : update_announcement store id u = (.ok (), store')) :
    store' = updateFirst id (applyUpd u) store ∧
    (∀ r ∈ store, r.oid ≠ id → r ∈ store') ∧
    (∀ a : Announcement,
      (u.message = none → (applyUpd u a).message = a.message) ∧
      (u.start_date = none → (applyUpd u a).start_date = a.start_date) ∧
      (u.end_date = none → (applyUpd u a).end_date = a.end_date) ∧
      (∀ m, u.message = some m → (applyUpd u a).message = m) ∧
      (∀ s, u.start_date = some s → (applyUpd u a).start_date = some s) ∧
      (∀ e, u.end_date = some e → (applyUpd u a).end_date = some e)) := by
  have hstore : store' = updateFirst id (applyUpd u) store := by
    simp only [update_announcement] at hok
    split at hok
    · exact absurd (congrArg Prod.fst hok) (by simp)
    · split at hok
      · exact absurd (congrArg Prod.fst hok) (by simp)
      · split at hok
        · exact absurd (congrArg Prod.fst hok) (by simp)
        · split at hok
          · exact absurd (congrArg Prod.fst hok) (by simp)
          · split at hok
            · exact absurd (congrArg Prod.fst hok) (by simp)
            · exact (congrArg Prod.snd hok).symm
  refine ⟨hstore, ?_, ?_⟩
  · intro r hr hne
    rw [hstore]
    exact mem_updateFirst_of_ne id (applyUpd u) store r hr hne
  · intro a
    refine ⟨?_, ?_, ?_, ?_, ?_, ?_⟩
    · intro hm
      simp [applyUpd, hm]
    · intro hs
      simp [applyUpd, hs]
    · intro hend
      simp [applyUpd, hend]
    · intro m hm
      simp [applyUpd, hm]
    · intro s hs
      simp [applyUpd, hs]
    · intro e hend
      simp [applyUpd, hend]

/-- Witness for C5: updating only the message leaves the stored
`start_date` unchanged. -/
theorem update_writes_only_supplied_fields_witness :
    (applyUpd ⟨some "new", none, none⟩ examWeek).start_date = examWeek.start_date :=
  ((update_writes_only_supplied_fields [examWeekRec] oidA ⟨some "new", none, none⟩
      [⟨oidA, ⟨"new", some "2025-01-01", some "2025-01-10"⟩⟩]
      (by rfl)).2.2 examWeek).2.1 rfl

/-- C6: update returns not-found when a well-formed identifier matches no
document (with the supplied fields otherwise valid, as the code checks
validation first); an empty payload and an invalid supplied date each give a
validation (bad-request) error; and every error outcome leaves the
collection exactly as it was. -/
theorem update_error_cases_no_mutation (store : AnnStore) (id : String)
    (u : AnnouncementUpdate) :
    (isValidObjectId id = true →
      (∀ s, u.start_date = some s → isoParses s = true) →
      (∀ e, u.end_date = some e → isoParses e = true) →
      ¬(u.message = none ∧ u.start_date = none ∧ u.end_date = none) →
      existsOid store id = false →
      update_announcement store id u =
        (.error (.notFound "Announcement not found"), store)) ∧
    (u.message = none → u.start_date = none → u.end_date = none →
      ∃ m, update_announcement store id u = (.error (.badRequest m), store)) ∧
    ((∃ s, u.start_date = some s ∧ isoParses s = false) ∨
        (∃ e, u.end_date = some e ∧ isoParses e = false) →
      ∃ m, update_announcement store id u = (.error (.badRequest m), store)) ∧
    (∀ e st, update_announcement store id u = (.error e, st) → st = store) := by
  refine ⟨?_, ?_, ?_, ?_⟩
  · intro hid hs hend hne hex
    have h1 : (!(isValidObjectId id)) = false := by rw [hid]; rfl
    have h2 : (u.start_date.isSome && !(isoParses (u.start_date.getD ""))) = false := by
      cases hsd : u.start_date with
      | none => rfl
      | some s => simp [hs s hsd]
    have h3 : (u.end_date.isSome && !(isoParses (u.end_date.getD ""))) = false := by
      cases hed : u.end_date with
      | none => rfl
      | some e => simp [hend e hed]
    have h4 : (u.message.isNone && u.start_date.isNone && u.end_date.isNone) = false := by
      cases hm : u.message with
      | some _ => simp
      | none =>
        cases hsd : u.start_date with
        | some _ => simp
        | none =>
          cases hed : u.end_date with
          | some _ => simp
          | none => exact absurd ⟨hm, hsd, hed⟩ hne
    simp only [update_announcement, h1, h2, h3, h4, Bool.false_eq_true, if_false, hex,
      Bool.not_false, if_true]
    rw [updateFirst_of_not_exists id (applyUpd u) store hex]
  · intro hm hsd hed
    rcases hid : isValidObjectId id with _ | _
    · exact ⟨"Invalid announcement ID", by
        simp only [update_announcement, hid, Bool.not_false, if_true]⟩
    · exact ⟨"No fields to update", by
        simp only [update_announcement, hid, Bool.not_true, Bool.false_eq_true, if_false,
          hm, hsd, hed, Option.isSome_none, Bool.false_and, Option.isNone_none,
          Bool.and_self, if_true]⟩
  · intro hbad
    rcases hid : isValidObjectId id with _ | _
    · exact ⟨"Invalid announcement ID", by
        simp only [update_announcement, hid, Bool.not_false, if_true]⟩
    · rcases hbad with ⟨s, hsd, hsp⟩ | ⟨e, hed, hep⟩
      · exact ⟨"Invalid start_date format. Use YYYY-MM-DD", by
          simp only [update_announcement, hid, Bool.not_true, Bool.false_eq_true, if_false,
            hsd, Option.isSome_some, hsp, Bool.not_false, Bool.and_self, Option.getD_some,
            if_true]⟩
      · rcases hsp2 : (u.start_date.isSome && !(isoParses (u.start_date.getD ""))) with _ | _
        · exact ⟨"Invalid end_date format. Use YYYY-MM-DD", by
            simp only [update_announcement, hid, Bool.not_true, Bool.false_eq_true, if_false,
              hsp2, hed, Option.isSome_some, hep, Bool.not_false, Bool.and_self,
              Option.getD_some, if_true]⟩
        · exact ⟨"Invalid start_date format. Use YYYY-MM-DD", by
            simp only [update_announcement, hid, Bool.not_true, Bool.false_eq_true, if_false,
              hsp2, if_true]⟩
  · intro e st h
    simp only [update_announcement] at h
    split at h
    · exact (congrArg Prod.snd h).symm
    · split at h
      · exact (congrArg Prod.snd h).symm
      · split at h
        · exact (congrArg Prod.snd h).symm
        · split at h
          · exact (congrArg Prod.snd h).symm
          · split at h
            · rename_i hcond
              have hex : existsOid store id = false := by
                rcases hx : existsOid store id with _ | _
                · rfl
                · rw [hx] at hcond
                  exact absurd hcond (by simp)
              have hsnd : updateFirst id (applyUpd u) store = st := congrArg Prod.snd h
              rw [← hsnd]
              exact updateFirst_of_not_exists id (applyUpd u) store hex
            · exact absurd (congrArg Prod.fst h) (by simp)

/-- Witness for C6: updating a well-formed but absent identifier on the
empty store returns not-found and leaves the store empty. -/
theorem update_error_cases_no_mutation_witness :
    update_announcement [] oidA ⟨some "x", none, none⟩ =
      (.error (.notFound "Announcement not found"), []) :=
  (update_error_cases_no_mutation [] oidA ⟨some "x", none, none⟩).1
    (by decide) (fun s hs => by cases hs) (fun e he => by cases he)
    (fun habs => by cases habs.1) rfl

/-- Counterexample to C2: the request supplies `start_date = ""`, which does
not parse as an ISO calendar date, yet create succeeds and persists the
record — Python's `if announcement.start_date:` skips validation of a falsy
(empty) string. -/
theorem create_skips_empty_start_validation_cex :
    isoParses "" = false ∧
    create_announcement [] oidA ⟨"m", some "", "2025-01-10"⟩ =
      (.ok ⟨oidA, ⟨"m", some "", some "2025-01-10"⟩⟩,
        [⟨oidA, ⟨"m", some "", some "2025-01-10"⟩⟩]) :=
  ⟨rfl, rfl⟩

/-- C2 (amended): create rejects with a bad-request validation error — and
persists nothing — when a supplied non-empty date string fails ISO parsing,
or when both dates are non-empty and `start_date > end_date`; an
empty-string `start_date` is treated as absent and skips validation.  In
every other case the record is persisted with its assigned identifier, and
every error outcome is a bad-request (never a store error) with the
collection unchanged. -/
theorem create_validation_amended (store : AnnStore) (newId : String)
    (req : AnnouncementCreate) :
    (∀ s, req.start_date = some s → s ≠ "" → isoParses s = false →
      create_announcement store newId req =
        (.error (.badRequest "Invalid start_date format. Use YYYY-MM-DD"), store)) ∧
    ((∀ s, req.start_date = some s → s ≠ "" → isoParses s = true) →
      isoParses req.end_date = false →
      create_announcement store newId req =
        (.error (.badRequest "Invalid end_date format. Use YYYY-MM-DD"), store)) ∧
    (∀ s, req.start_date = some s → s ≠ "" → isoParses s = true →
      isoParses req.end_date = true → strLtB req.end_date s = true →
      create_announcement store newId req =
        (.error (.badRequest "end_date must be after start_date"), store)) ∧
    ((∀ s, req.start_date = some s → s ≠ "" → isoParses s = true) →
      isoParses req.end_date = true →
      (∀ s, req.start_date = some s → s ≠ "" → strLtB req.end_date s = false) →
      create_announcement store newId req =
        (.ok ⟨newId, ⟨req.message, req.start_date, some req.end_date⟩⟩,
          store ++ [⟨newId, ⟨req.message, req.start_date, some req.end_date⟩⟩])) ∧
    (∀ e st, create_announcement store newId req = (.error e, st) →
      (∃ m, e = .badRequest m) ∧ st = store) := by
  have htru : ∀ s : String, s ≠ "" → truthyOpt (some s) = true := by
    intro s hne
    rcases hb : (s == "") with _ | _
    · simp [truthyOpt, hb]
    · exact absurd (eq_of_beq hb) hne
  refine ⟨?_, ?_, ?_, ?_, ?_⟩
  · intro s hs hne hbad
    simp [create_announcement, hs, hbad, htru s hne]
  · intro hgood hbad
    have h1 : (truthyOpt req.start_date && !(isoParses (req.start_date.getD ""))) = false := by
      cases hs : req.start_date with
      | none => rfl
      | some s =>
        rcases hb : (s == "") with _ | _
        · simp [truthyOpt, hs, hb, hgood s hs (fun he => by rw [he] at hb; simp at hb)]
        · simp [truthyOpt, hs, eq_of_beq hb]
    simp only [create_announcement, h1, Bool.false_eq_true, if_false, hbad,
      Bool.not_false, if_true]
  · intro s hs hne hsok heok hlt
    have hene : (req.end_date == "") = false := by
      rcases hb : (req.end_date == "") with _ | _
      · rfl
      · exact absurd heok (by rw [eq_of_beq hb]; decide)
    simp [create_announcement, hs, hsok, heok, hlt, hene, htru s hne]
  · intro hgood heok hnogt
    have h1 : (truthyOpt req.start_date && !(isoParses (req.start_date.getD ""))) = false := by
      cases hs : req.start_date with
      | none => rfl
      | some s =>
        rcases hb : (s == "") with _ | _
        · simp [truthyOpt, hs, hb, hgood s hs (fun he => by rw [he] at hb; simp at hb)]
        · simp [truthyOpt, hs, eq_of_beq hb]
    have h3 : (truthyOpt req.start_date && !(req.end_date == "") &&
        strLtB req.end_date (req.start_date.getD "")) = false := by
      cases hs : req.start_date with
      | none => rfl
      | some s =>
        rcases hb : (s == "") with _ | _
        · simp only [truthyOpt, hs, hb, Bool.not_false, Bool.true_and, Option.getD_some]
          rcases hbe : (req.end_date == "") with _ | _
          · simp [hnogt s hs (fun he => by rw [he] at hb; simp at hb)]
          · simp
        · simp [truthyOpt, hs, eq_of_beq hb]
    simp only [create_announcement, h1, Bool.false_eq_true, if_false, heok,
      Bool.not_true, if_true, h3]
  · intro e st h
    simp only [create_announcement] at h
    split at h
    · injection h with h1 h2
      injection h1 with h3
      exact ⟨⟨_, h3.symm⟩, h2.symm⟩
    · split at h
      · injection h with h1 h2
        injection h1 with h3
        exact ⟨⟨_, h3.symm⟩, h2.symm⟩
      · split at h
        · injection h with h1 h2
          injection h1 with h3
          exact ⟨⟨_, h3.symm⟩, h2.symm⟩
        · exact absurd (congrArg Prod.fst h) (by simp)

/-- Witness for the amended C2: a valid request is persisted with its
assigned identifier. -/
theorem create_validation_amended_witness :
    create_announcement [] oidA ⟨"Exam week", some "2025-01-01", "2025-01-10"⟩ =
      (.ok ⟨oidA, ⟨"Exam week", some "2025-01-01", some "2025-01-10"⟩⟩,
        [⟨oidA, ⟨"Exam week", some "2025-01-01", some "2025-01-10"⟩⟩]) :=
  (create_validation_amended [] oidA ⟨"Exam week", some "2025-01-01", "2025-01-10"⟩).2.2.2.1
    (fun s hs _ => by cases hs; decide) (by decide)
    (fun s hs _ => by cases hs; decide)

/-- Counterexample to C7: starting from a store satisfying the date
invariant, a successful update that supplies only a (validly formatted)
`end_date` earlier than the stored `start_date` produces a record violating
`start_date <= end_date` — the update handler never re-checks the
cross-field ordering. -/
theorem update_can_break_date_invariant_cex :
    invRecord examWeek = true ∧
    update_announcement [examWeekRec] oidA ⟨none, none, some "2024-01-01"⟩ =
      (.ok (), [⟨oidA, ⟨"Exam week", some "2025-01-01", some "2024-01-01"⟩⟩]) ∧
    invRecord ⟨"Exam week", some "2025-01-01", some "2024-01-01"⟩ = false :=
  ⟨rfl, rfl, rfl⟩

/-- C7 (amended): the `start_date <= end_date` invariant is established by
create (its cross-field check, together with the lexicographic order on
date strings, guarantees the inserted record satisfies it) and preserved by
delete; update performs only field-level date validation and can break it. -/
theorem create_delete_preserve_date_invariant (store : AnnStore) (newId : String)
    (req : AnnouncementCreate) (id : String) (hinv : invStore store = true) :
    invStore (create_announcement store newId req).2 = true ∧
    invStore (delete_announcement store id).2 = true := by
  constructor
  · unfold create_announcement
    split
    · exact hinv
    · split
      · exact hinv
      · split
        · rename_i hc1 hc2 hc3
          exact hinv
        · rename_i hc1 hc2 hc3
          have hrec : invRecord ⟨req.message, req.start_date, some req.end_date⟩ = true := by
            cases hs : req.start_date with
            | none => rfl
            | some s =>
              rcases hb : (s == "") with _ | _
              · have htru : truthyOpt req.start_date = true := by
                  simp [truthyOpt, hs, hb]
                have hene : (req.end_date == "") = false := by
                  rcases hbe : (req.end_date == "") with _ | _
                  · rfl
                  · have heok : isoParses req.end_date = true := by
                      rcases hx : isoParses req.end_date with _ | _
                      · exact absurd hc2 (by simp [hx])
                      · rfl
                    exact absurd heok (by rw [eq_of_beq hbe]; decide)
                have hlt : strLtB req.end_date s = false := by
                  rcases hx : strLtB req.end_date s with _ | _
                  · rfl
                  · exfalso
                    apply hc3
                    simp [hs, truthyOpt, hb, hene, hx]
                simp [invRecord, strLeB, hlt]
              · have hsb := eq_of_beq hb
                subst hsb
                simp [invRecord, strLeB, strLtB_empty_right]
          simp only [invStore, List.all_append, List.all_cons, List.all_nil,
            Bool.and_true, hrec]
          rw [invStore] at hinv
          rw [hinv]
  · unfold delete_announcement
    have hdel : invStore (deleteFirst id store) = true := by
      rw [invStore]
      rw [List.all_eq_true]
      intro r hr
      rw [invStore, List.all_eq_true] at hinv
      exact hinv r (mem_of_mem_deleteFirst id store r hr)
    split
    · exact hinv
    · split
      · exact hdel
      · exact hdel

/-- Witness for the amended C7: create on the empty store yields an
invariant-satisfying store. -/
theorem create_delete_preserve_date_invariant_witness :
    invStore (create_announcement [] oidA
      ⟨"Exam week", some "2025-01-01", "2025-01-10"⟩).2 = true :=
  (create_delete_preserve_date_invariant [] oidA
    ⟨"Exam week", some "2025-01-01", "2025-01-10"⟩ oidA (by decide)).1

/-- C8: every success of login, session check and the authenticated-request
gate returns exactly the `{username, display_name, role}` projection of a
stored teacher; that projection contains the teacher's public fields and is
unchanged under any change of the stored password hash, so the hash never
reaches a response. -/
theorem auth_success_exposes_public_fields_only (verify : String → String → Bool)
    (ts : TeacherStore) (u p : String) (auth : Option String) :
    (∀ r, login verify ts u p = .ok r → ∃ t, findTeacher ts u = some t ∧ r = publicOf t) ∧
    (∀ r, check_session ts u = .ok r → ∃ t, findTeacher ts u = some t ∧ r = publicOf t) ∧
    (∀ r, get_current_user ts auth = .ok r → ∃ t, t ∈ ts ∧ r = publicOf t) ∧
    (∀ t pw, publicOf { t with password := pw } = publicOf t) ∧
    (∀ t, (publicOf t).username = t.username ∧
      (publicOf t).display_name = t.display_name ∧ (publicOf t).role = t.role) := by
  refine ⟨?_, ?_, ?_, fun t pw => rfl, fun t => ⟨rfl, rfl, rfl⟩⟩
  · intro r h
    unfold login at h
    rcases hf : findTeacher ts u with _ | t
    · rw [hf] at h
      exact absurd h (by simp)
    · rw [hf] at h
      rcases hv : verify t.password p with _ | _
      · simp [hv] at h
      · simp [hv] at h
        exact ⟨t, rfl, h.symm⟩
  · intro r h
    unfold check_session at h
    rcases hf : findTeacher ts u with _ | t
    · rw [hf] at h
      exact absurd h (by simp)
    · rw [hf] at h
      simp at h
      exact ⟨t, rfl, h.symm⟩
  · intro r h
    cases auth with
    | none => exact absurd h (by simp [get_current_user])
    | some hd =>
      rcases hempty : (hd == "") with _ | _
      · simp only [get_current_user, hempty, Bool.false_eq_true, if_false] at h
        rcases hf : findTeacher ts (stripBearer hd) with _ | t
        · rw [hf] at h
          exact absurd h (by simp)
        · rw [hf] at h
          simp at h
          have hf' : ts.find? (fun t => t.username == stripBearer hd) = some t := hf
          exact ⟨t, List.mem_of_find?_eq_some hf', h.symm⟩
      · simp only [get_current_user, hempty, if_true] at h
        exact absurd h (by simp)

/-- Witness for C8: a successful login at a concrete store returns the
public projection. -/
theorem auth_success_exposes_public_fields_only_witness :
    ∃ t, findTeacher [teacherA] "alice" = some t ∧ publicOf teacherA = publicOf t :=
  (auth_success_exposes_public_fields_only verifyEq [teacherA] "alice" "hash1"
    none).1 (publicOf teacherA) rfl

/-- C9: delete with a malformed identifier fails bad-request and changes
nothing; when a record with the (well-formed, held by at most one record)
identifier exists, delete succeeds and removes it, after which neither the
all-records listing nor any active listing contains that identifier, and a
second delete of the same identifier fails not-found without further
change. -/
theorem delete_spec_cases (store : AnnStore) (id : String) :
    (isValidObjectId id = false →
      delete_announcement store id =
        (.error (.badRequest "Invalid announcement ID"), store)) ∧
    (∀ r ∈ store, r.oid = id →
      (store.filter (fun x => x.oid == id)).length ≤ 1 →
      isValidObjectId id = true →
      delete_announcement store id = (.ok (), deleteFirst id store) ∧
      (∀ r' ∈ get_all_announcements (deleteFirst id store), r'.oid ≠ id) ∧
      (∀ today, ∀ r' ∈ get_active_announcements today (deleteFirst id store),
        r'.oid ≠ id) ∧
      delete_announcement (deleteFirst id store) id =
        (.error (.notFound "Announcement not found"), deleteFirst id store)) := by
  constructor
  · intro hid
    simp only [delete_announcement, hid, Bool.not_false, if_true]
  · intro r hr hroid hcount hid
    have hex : existsOid store id = true := existsOid_of_mem hr hroid
    have hnone : ∀ r' ∈ deleteFirst id store, r'.oid ≠ id :=
      deleteFirst_removes_all id store hcount
    have hex2 : existsOid (deleteFirst id store) id = false := existsOid_eq_false hnone
    refine ⟨?_, ?_, ?_, ?_⟩
    · simp only [delete_announcement, hid, Bool.not_true, Bool.false_eq_true, if_false,
        hex, if_true]
    · intro r' hr'
      exact hnone r' hr'
    · intro today r' hr'
      exact hnone r' (List.mem_of_mem_filter hr')
    · simp only [delete_announcement, hid, Bool.not_true, Bool.false_eq_true, if_false,
        hex2, Bool.not_false, if_true]
      rw [deleteFirst_of_not_exists id (deleteFirst id store) hex2]

/-- Witness for C9: deleting the example record succeeds. -/
theorem delete_spec_cases_witness :
    delete_announcement [examWeekRec] oidA = (.ok (), deleteFirst oidA [examWeekRec]) :=
  ((delete_spec_cases [examWeekRec] oidA).2 examWeekRec (by decide) rfl
    (by decide) (by decide)).1
